import Mathlib

/-!
Shallow embedding of the exam-paper blueprint allocation engine
(`src/paper/blueprint.py`, `src/paper/selector.py`, `src/paper/generator.py`,
`src/paper/orchestrator.py`).

Modelling conventions:
* Python `int` becomes `Int`; Python `float` scores/percentages become `Rat`
  (exact for every value the claims touch).
* Python dicts that the code only iterates, looks up, or point-updates become
  association lists (`List (key × value)`), with first-match lookup mirroring
  dict-key uniqueness in all constructed inputs.
* Python `while` loops become fuel-indexed structural recursion.  Every loop
  in the source consumes one candidate (selector) or at least one unit of
  remaining budget (plan builder) per iteration, so the fuel passed by the
  wrappers (`candidates.length`, `remaining.toNat`) is never exhausted before
  the loop's own exit condition fires; with zero fuel each loop returns its
  current state, which coincides with the source loop's exit in that case.
* Raised exceptions become `Except.error`; truthiness tests (`if max_marks:`,
  `if prefer_bloom:`, ...) are translated literally (0 and "" are falsy).
* The external collaborators (candidate catalog, item producer, PDF renderer)
  are cut at their interfaces: the eligible pool is a parameter, the producer
  is a function `Nat → QuestionSpec → Except String Int`, the database row
  store targeted by `update_question` is a marks table `Int → Int`, and the
  process-wide RNG is an explicit `shuffle`/oracle parameter so that theorems
  quantify over every possible random outcome.
-/

/-- One question row, with exactly the fields the selection engine reads
(`schema.Question`).  `quality_score` is a Python float in `[0,100]`; it is
modelled as a rational. -/
structure Question where
  id : Int
  marks : Int
  primary_co : String
  unit_id : String
  bloom_level : Int
  difficulty : String
  quality_score : Rat
  deriving DecidableEq, Repr

/-- The heterogeneous `value` slot of a `BlueprintConstraint`
(`blueprint.BlueprintConstraint.value`, typed `any` in the source). -/
inductive ConstraintValue where
  | intVal (n : Int)
  | strIntMap (m : List (String × Int))
  | intRatMap (m : List (Int × Rat))
  | strRatMap (m : List (String × Rat))
  | rangeVal (lo hi : Int)
  deriving DecidableEq, Repr

namespace ConstraintValue

/-- Reading the value as a Python `int`; any other shape is a `TypeError`. -/
def asInt : ConstraintValue → Option Int
  | intVal n => some n
  | _ => none

/-- Reading the value as a `{str: int}` dict. -/
def asStrIntMap : ConstraintValue → Option (List (String × Int))
  | strIntMap m => some m
  | _ => none

/-- Reading the value as a `{int: float}` dict. -/
def asIntRatMap : ConstraintValue → Option (List (Int × Rat))
  | intRatMap m => some m
  | _ => none

/-- Reading the value as a `{str: float}` dict. -/
def asStrRatMap : ConstraintValue → Option (List (String × Rat))
  | strRatMap m => some m
  | _ => none

end ConstraintValue

/-- `blueprint.BlueprintConstraint`. -/
structure BlueprintConstraint where
  constraint_type : String
  value : ConstraintValue
  is_hard_constraint : Bool := true
  deriving DecidableEq, Repr

/-- `blueprint.PaperBlueprint`: identity fields plus the ordered constraint
list built up by the `set_*` methods. -/
structure PaperBlueprint where
  paper_name : String
  course_code : String
  exam_type : String := "midterm"
  constraints : List BlueprintConstraint
  deriving DecidableEq, Repr

namespace PaperBlueprint

/-- `PaperBlueprint.get_constraint`: first constraint with the given type. -/
def get_constraint (bp : PaperBlueprint) (t : String) : Option BlueprintConstraint :=
  bp.constraints.find? (fun c => c.constraint_type == t)

/-- `PaperBlueprint.validate`: requires `marks_total` and `duration`
constraints; in the source a missing one raises `ValueError`. -/
def validate (bp : PaperBlueprint) : Bool :=
  (bp.get_constraint "marks_total").isSome && (bp.get_constraint "duration").isSome

end PaperBlueprint

/-- The blueprint's total budget, when present and integer-typed. -/
def getIntConstraint (bp : PaperBlueprint) (t : String) : Option Int :=
  (bp.get_constraint t).bind (fun c => c.value.asInt)

/-- A `{str: int}` constraint map, defaulting to the empty dict when the
constraint is absent (the source's `c.value if c else {}` idiom); `none`
models the `TypeError` a wrongly-shaped value would raise downstream. -/
def getStrIntMapD (bp : PaperBlueprint) (t : String) : Option (List (String × Int)) :=
  match bp.get_constraint t with
  | none => some []
  | some c => c.value.asStrIntMap

/-- As `getStrIntMapD` for `{int: float}` maps. -/
def getIntRatMapD (bp : PaperBlueprint) (t : String) : Option (List (Int × Rat)) :=
  match bp.get_constraint t with
  | none => some []
  | some c => c.value.asIntRatMap

/-- As `getStrIntMapD` for `{str: float}` maps. -/
def getStrRatMapD (bp : PaperBlueprint) (t : String) : Option (List (String × Rat)) :=
  match bp.get_constraint t with
  | none => some []
  | some c => c.value.asStrRatMap

/-- `sum(q.marks for q in l)`. -/
def sumMarks (l : List Question) : Int :=
  (l.map (fun q => q.marks)).sum

/-- Dict read with default: `d.get(k, dflt)` / `d[k]` on an association
list. -/
def alistGet (l : List (String × Int)) (k : String) (dflt : Int) : Int :=
  match l.find? (fun p => p.1 == k) with
  | some p => p.2
  | none => dflt

/-- Dict point update `d[k] += v` (key present in every source call site). -/
def alistAdd (l : List (String × Int)) (k : String) (v : Int) : List (String × Int) :=
  l.map (fun p => if p.1 == k then (p.1, p.2 + v) else p)

/-- Python truthiness of an optional string (`None` and `""` are falsy). -/
def truthyStr : Option String → Bool
  | none => false
  | some s => s != ""

/-- Python truthiness of an optional int (`None` and `0` are falsy). -/
def truthyInt : Option Int → Bool
  | none => false
  | some n => n != 0

/-! ## Selector (`selector.QuestionSelector`) -/

/-- The per-candidate score in `_find_best_question` (lines 301-317):
`10·[bloom matches] + 5·[difficulty matches] + quality/100·3`, with the
source's truthiness guards on the preferences. -/
def scoreQuestion (prefer_bloom : Option Int) (prefer_difficulty : Option String)
    (q : Question) : Rat :=
  (if truthyInt prefer_bloom ∧ some q.bloom_level = prefer_bloom then 10 else 0)
    + (if truthyStr prefer_difficulty ∧ some q.difficulty = prefer_difficulty then 5 else 0)
    + q.quality_score / 100 * 3

/-- `scores.sort(reverse=True, key=score); return scores[0][1]`: Python's sort
is stable, so the head of the descending sort is the *first* candidate with
the maximal score.  The fold keeps the current best on ties, which is exactly
that element. -/
def pickBest (score : Question → Rat) : List Question → Option Question
  | [] => none
  | q :: qs => some (qs.foldl (fun best c => if score best < score c then c else best) q)

/-- `_find_best_question` (lines 269-321): filter by non-selected id, primary
CO, unit and mark cap (each filter guarded by Python truthiness, so a cap of
`0` or an empty-string key applies no filter), then return the first
highest-scoring match. -/
def find_best_question (candidates already_selected : List Question)
    (primary_co : Option String) (unit_id : Option String) (max_marks : Option Int)
    (prefer_bloom : Option Int) (prefer_difficulty : Option String) : Option Question :=
  let selected_ids := already_selected.map (fun q => q.id)
  let m0 := candidates.filter (fun q => !(selected_ids.contains q.id))
  let m1 := if truthyStr primary_co then
      m0.filter (fun q => some q.primary_co == primary_co) else m0
  let m2 := if truthyStr unit_id then
      m1.filter (fun q => some q.unit_id == unit_id) else m1
  let m3 := if truthyInt max_marks then
      m2.filter (fun q => decide (q.marks ≤ max_marks.getD 0)) else m2
  pickBest (scoreQuestion prefer_bloom prefer_difficulty) m3

/-- The shared shape of `_get_underrepresented_bloom` / `_difficulty`:
fold over the target map tracking the entry with the largest
`target_pct - current_pct`, starting from deficit `-1`, strict improvement
only (so the first of equal deficits wins, as in the source loop). -/
def mostUnderrepresented {α : Type} (current : α → Rat) (target : List (α × Rat)) :
    Option α :=
  (target.foldl
    (fun acc p =>
      let deficit := p.2 - current p.1
      if acc.1 < deficit then (deficit, some p.1) else acc)
    ((-1 : Rat), (none : Option α))).2

/-- `_get_underrepresented_bloom` (lines 323-355).  `current[level]` is the
summed marks of selected questions at that level, as built by the source's
dict loop. -/
def get_underrepresented_bloom (selected : List Question)
    (target_distribution : List (Int × Rat)) : Option Int :=
  if target_distribution = [] ∨ selected = [] then none
  else
    let total_marks := sumMarks selected
    if total_marks = 0 then none
    else
      mostUnderrepresented
        (fun level => (sumMarks (selected.filter (fun q => q.bloom_level == level)) : Rat)
          / (total_marks : Rat))
        target_distribution

/-- `_get_underrepresented_difficulty` (lines 357-389). -/
def get_underrepresented_difficulty (selected : List Question)
    (target_mix : List (String × Rat)) : Option String :=
  if target_mix = [] ∨ selected = [] then none
  else
    let total_marks := sumMarks selected
    if total_marks = 0 then none
    else
      mostUnderrepresented
        (fun d => (sumMarks (selected.filter (fun q => q.difficulty == d)) : Rat)
          / (total_marks : Rat))
        target_mix

/-- The mutable state threaded through `_greedy_select_with_backtracking`. -/
structure SelState where
  selected : List Question
  candidates : List Question
  remaining : Int
  co_fulfilled : List (String × Int)
  unit_fulfilled : List (String × Int)
  deriving DecidableEq, Repr

/-- Phase-1 inner loop (lines 203-223): `while co_fulfilled[co] < min_marks`,
pick a question for this CO capped at the remaining budget, move it from the
candidates, debit the budget, credit the CO and (if tracked) its unit.  One
candidate is consumed per iteration, so `candidates.length` fuel is never
exhausted before the loop's own exit. -/
def coPhaseLoop (co : String) (min_marks : Int) : Nat → SelState → SelState
  | 0, st => st
  | fuel + 1, st =>
    if alistGet st.co_fulfilled co 0 < min_marks then
      match find_best_question st.candidates st.selected (some co) none
          (some st.remaining) none none with
      | none => st
      | some q =>
        coPhaseLoop co min_marks fuel
          { selected := st.selected ++ [q]
            candidates := st.candidates.erase q
            remaining := st.remaining - q.marks
            co_fulfilled := alistAdd st.co_fulfilled co q.marks
            unit_fulfilled :=
              if (st.unit_fulfilled.find? (fun p => p.1 == q.unit_id)).isSome then
                alistAdd st.unit_fulfilled q.unit_id q.marks
              else st.unit_fulfilled }
    else st

/-- Phase-1 unit loop (lines 226-245): `while unit_fulfilled.get(unit,0) <
min_marks`, symmetric to the CO loop, crediting the CO only when tracked. -/
def unitPhaseLoop (unit : String) (min_marks : Int) : Nat → SelState → SelState
  | 0, st => st
  | fuel + 1, st =>
    if alistGet st.unit_fulfilled unit 0 < min_marks then
      match find_best_question st.candidates st.selected none (some unit)
          (some st.remaining) none none with
      | none => st
      | some q =>
        unitPhaseLoop unit min_marks fuel
          { selected := st.selected ++ [q]
            candidates := st.candidates.erase q
            remaining := st.remaining - q.marks
            co_fulfilled :=
              if (st.co_fulfilled.find? (fun p => p.1 == q.primary_co)).isSome then
                alistAdd st.co_fulfilled q.primary_co q.marks
              else st.co_fulfilled
            unit_fulfilled := alistAdd st.unit_fulfilled unit q.marks }
    else st

/-- Phase 2 (lines 250-265): `while remaining_marks > 0 and candidates`, pick
the best candidate for the most underrepresented Bloom level and difficulty,
capped at the remaining budget. -/
def phase2Loop (bloom_distribution : List (Int × Rat))
    (difficulty_mix : List (String × Rat)) : Nat → SelState → SelState
  | 0, st => st
  | fuel + 1, st =>
    if 0 < st.remaining ∧ st.candidates ≠ [] then
      match find_best_question st.candidates st.selected none none
          (some st.remaining)
          (get_underrepresented_bloom st.selected bloom_distribution)
          (get_underrepresented_difficulty st.selected difficulty_mix) with
      | none => st
      | some q =>
        phase2Loop bloom_distribution difficulty_mix fuel
          { st with
            selected := st.selected ++ [q]
            candidates := st.candidates.erase q
            remaining := st.remaining - q.marks }
    else st

/-- `_greedy_select_with_backtracking` (lines 169-267).  The `randomize`
shuffle is the process-wide RNG; it is passed in as an explicit `shuffle`
function so every possible shuffle outcome is covered. -/
def greedy_select_with_backtracking (eligible : List Question) (target_marks : Int)
    (co_requirements : List (String × Int)) (bloom_distribution : List (Int × Rat))
    (difficulty_mix : List (String × Rat)) (unit_requirements : List (String × Int))
    (randomize : Bool) (shuffle : List Question → List Question) : List Question :=
  let candidates := if randomize then shuffle eligible else eligible
  let st0 : SelState :=
    { selected := []
      candidates := candidates
      remaining := target_marks
      co_fulfilled := co_requirements.map (fun p => (p.1, (0 : Int)))
      unit_fulfilled := unit_requirements.map (fun p => (p.1, (0 : Int))) }
  let st1 := co_requirements.foldl
    (fun st p => coPhaseLoop p.1 p.2 st.candidates.length st) st0
  let st2 := unit_requirements.foldl
    (fun st p => unitPhaseLoop p.1 p.2 st.candidates.length st) st1
  let st3 := phase2Loop bloom_distribution difficulty_mix st2.candidates.length st2
  st3.selected

/-- `sum(q.marks for q in selected if q.primary_co == co)`: the value
`co_actual.get(co, 0)` computed by `_verify_constraints`. -/
def coActualGet (selected : List Question) (co : String) : Int :=
  sumMarks (selected.filter (fun q => q.primary_co == co))

/-- `unit_actual.get(unit, 0)` in `_verify_constraints`. -/
def unitActualGet (selected : List Question) (u : String) : Int :=
  sumMarks (selected.filter (fun q => q.unit_id == u))

/-- The `total_marks` entry of `_verify_constraints` (lines 402-405): absent
when there is no `marks_total` constraint, `±5` tolerance otherwise. -/
def verifyTotalEntries (selected : List Question) (bp : PaperBlueprint) :
    Option (List (String × Bool)) :=
  match bp.get_constraint "marks_total" with
  | none => some []
  | some c => c.value.asInt.map
      (fun T => [("total_marks", decide ((sumMarks selected - T).natAbs ≤ 5))])

/-- The `co_coverage` entry of `_verify_constraints` (lines 408-418). -/
def verifyCoEntries (selected : List Question) (bp : PaperBlueprint) :
    Option (List (String × Bool)) :=
  match bp.get_constraint "co_coverage" with
  | none => some []
  | some c => c.value.asStrIntMap.map
      (fun m => [("co_coverage", m.all (fun p => decide (p.2 ≤ coActualGet selected p.1)))])

/-- The `unit_coverage` entry of `_verify_constraints` (lines 421-431). -/
def verifyUnitEntries (selected : List Question) (bp : PaperBlueprint) :
    Option (List (String × Bool)) :=
  match bp.get_constraint "unit_coverage" with
  | none => some []
  | some c => c.value.asStrIntMap.map
      (fun m => [("unit_coverage", m.all (fun p => decide (p.2 ≤ unitActualGet selected p.1)))])

/-- `_verify_constraints` (lines 391-437): total marks within ±5, every CO
minimum met, every unit minimum met, and the two soft-distribution entries
unconditionally `true`.  `none` models the `TypeError` of a wrongly-typed
constraint value. -/
def verify_constraints (selected : List Question) (bp : PaperBlueprint) :
    Option (List (String × Bool)) :=
  match verifyTotalEntries selected bp, verifyCoEntries selected bp,
      verifyUnitEntries selected bp with
  | some l1, some l2, some l3 =>
      some (l1 ++ l2 ++ l3 ++ [("bloom_distribution", true), ("difficulty_mix", true)])
  | _, _, _ => none

/-- A `selection_metadata` value (`str` or `int` in the source dicts). -/
inductive MetaVal where
  | str (s : String)
  | int (n : Int)
  deriving DecidableEq, Repr

/-- `SelectionResult` (selector lines 16-24). -/
structure SelectionResult where
  success : Bool
  selected_questions : List Question
  total_marks : Int
  constraints_satisfied : List (String × Bool)
  selection_metadata : List (String × MetaVal)
  deriving DecidableEq, Repr

/-- Lines 104-141 of `select_questions`: the failure result when the greedy
pass selected nothing, otherwise verification and assembly of the
`SelectionResult` (success iff every verification entry holds). -/
def selection_result_of (bp : PaperBlueprint) (eligible selected : List Question) :
    Except String SelectionResult :=
  if selected = [] then
    .ok { success := false, selected_questions := [], total_marks := 0
          constraints_satisfied := []
          selection_metadata := [("error", .str "constraint_satisfaction_failed")] }
  else
    match verify_constraints selected bp with
    | none => .error "TypeError"
    | some cs =>
      .ok { success := cs.all (fun p => p.2)
            selected_questions := selected
            total_marks := sumMarks selected
            constraints_satisfied := cs
            selection_metadata :=
              [("eligible_count", .int eligible.length),
               ("selected_count", .int selected.length)] }

/-- `QuestionSelector.select_questions` (lines 42-141).  The eligible pool is
the result of the external catalog query (`_get_eligible_questions`) and is
passed in directly; `shuffle` stands for `random.shuffle`.  Exceptions
(failed validation, wrongly-typed constraint values) are `Except.error`. -/
def select_questions (bp : PaperBlueprint) (eligible : List Question)
    (randomize : Bool) (shuffle : List Question → List Question) :
    Except String SelectionResult :=
  if bp.validate = false then
    .error "ValueError: Missing required constraint"
  else if eligible = [] then
    .ok { success := false, selected_questions := [], total_marks := 0
          constraints_satisfied := []
          selection_metadata := [("error", .str "no_eligible_questions")] }
  else
    match getIntConstraint bp "marks_total", getStrIntMapD bp "co_coverage",
        getIntRatMapD bp "bloom_distribution", getStrRatMapD bp "difficulty_mix",
        getStrIntMapD bp "unit_coverage" with
    | some target_marks, some coMap, some bloomMap, some diffMap, some unitMap =>
      selection_result_of bp eligible
        (greedy_select_with_backtracking eligible target_marks
          coMap bloomMap diffMap unitMap randomize shuffle)
    | _, _, _, _, _ => .error "TypeError"

/-! ## Plan builder (`generator.FreshPaperGenerator`) -/

/-- An entry of the generation plan (`_build_generation_plan` result dicts). -/
structure QuestionSpec where
  unit_id : String
  co_id : String
  bloom_level : Int
  difficulty : String
  marks : Int
  deriving DecidableEq, Repr

/-- `STANDARD_MARKS = [2, 5, 10, 16]` (generator line 134). -/
def STANDARD_MARKS : List Int := [2, 5, 10, 16]

/-- `_choose_marks` (lines 209-214): the largest standard value that fits both
the outstanding requirement and the remaining budget, else `min(2, available)`.
The source iterates `reversed(standard)` and returns the first hit. -/
def choose_marks (needed available : Int) (standard : List Int) : Int :=
  match standard.reverse.find? (fun m => decide (m ≤ needed) && decide (m ≤ available)) with
  | some m => m
  | none => min 2 available

/-- Python `str.replace(pat, rep)` on character lists, for a non-empty
pattern: replace all non-overlapping occurrences left to right.  (The
built-in `String.replace` does not reduce in the kernel; each step consumes
at least one character, so `s.length` fuel always suffices.) -/
def replaceAux (pat rep : List Char) : Nat → List Char → List Char
  | 0, l => l
  | _ + 1, [] => []
  | fuel + 1, c :: cs =>
    if pat.isPrefixOf (c :: cs) then
      rep ++ replaceAux pat rep fuel (cs.drop (pat.length - 1))
    else
      c :: replaceAux pat rep fuel cs

/-- Python `s.replace(pat, rep)`; the source only uses the non-empty
patterns `"CO"` and `"unit_"`. -/
def strReplace (s pat rep : String) : String :=
  if pat.data = [] then s
  else ⟨replaceAux pat.data rep.data s.data.length s.data⟩

/-- The digit run of Python `int(...)`, most significant first. -/
def digitsToNat : List Char → Nat → Option Nat
  | [], acc => some acc
  | c :: cs, acc =>
    if c.isDigit then digitsToNat cs (acc * 10 + (c.toNat - 48)) else none

/-- Python `int(s)` on the id fragments the mappings produce: an optional
sign followed by at least one digit; anything else raises `ValueError`
(`none`). -/
def parseIntStr (s : String) : Option Int :=
  match s.data with
  | [] => none
  | '-' :: rest =>
    if rest.isEmpty then none else (digitsToNat rest 0).map (fun n => -(n : Int))
  | '+' :: rest =>
    if rest.isEmpty then none else (digitsToNat rest 0).map (fun n => (n : Int))
  | l => (digitsToNat l 0).map (fun n => (n : Int))

/-- `_map_co_to_unit` (lines 237-241): `int(co_id.replace('CO',''))`, capped at
5; `none` is the `ValueError` a non-numeric id raises. -/
def map_co_to_unit (co_id : String) : Option String :=
  (parseIntStr (strReplace co_id "CO" "")).map (fun n => "unit_" ++ toString (min n 5))

/-- `_map_unit_to_co` (lines 243-246). -/
def map_unit_to_co (unit_id : String) : Option String :=
  (parseIntStr (strReplace unit_id "unit_" "")).map (fun n => "CO" ++ toString (min n 5))

/-- `_choose_bloom_level` (lines 216-225): default Bloom 2 on an empty
distribution, else a weighted `random.choices` draw, abstracted as an oracle
indexed by the number of specs planned so far. -/
def choose_bloom_level (oracle : Nat → List (Int × Rat) → Int) (idx : Nat)
    (distribution : List (Int × Rat)) : Int :=
  if distribution = [] then 2 else oracle idx distribution

/-- `_choose_difficulty` (lines 227-235): default `"medium"`, else a weighted
draw. -/
def choose_difficulty (oracle : Nat → List (String × Rat) → String) (idx : Nat)
    (mix : List (String × Rat)) : String :=
  if mix = [] then "medium" else oracle idx mix

/-- Lexicographic comparison of character lists by Unicode scalar value —
Python's `str <` (the built-in `String.decidableLT` does not reduce in the
kernel). -/
def charListLt : List Char → List Char → Bool
  | [], [] => false
  | [], _ :: _ => true
  | _ :: _, [] => false
  | c :: cs, d :: ds =>
    if c.toNat < d.toNat then true
    else if d.toNat < c.toNat then false
    else charListLt cs ds

/-- Python string comparison `a < b`. -/
def strLt (a b : String) : Bool := charListLt a.data b.data

/-- Stable insertion into an ascending-by-key list (`sorted(d.items())`; dict
keys are unique, so comparing keys matches Python's tuple comparison). -/
def insertSortedByKey (x : String × Int) : List (String × Int) → List (String × Int)
  | [] => [x]
  | y :: ys => if strLt x.1 y.1 then x :: y :: ys else y :: insertSortedByKey x ys

/-- `sorted(d.items())` on an association list. -/
def sortByKey : List (String × Int) → List (String × Int)
  | [] => []
  | x :: xs => insertSortedByKey x (sortByKey xs)

/-- `sum(q['marks'] for q in plan ...)`. -/
def sumSpecMarks (l : List QuestionSpec) : Int :=
  (l.map (fun s => s.marks)).sum

/-- Phase-1 inner loop of `_build_generation_plan` (lines 140-162): while the
CO minimum is unmet and budget remains, emit one spec.  Each iteration costs
at least 1 mark, so `remaining.toNat` fuel is never exhausted first. -/
def planCoLoop (cb : Nat → List (Int × Rat) → Int) (cd : Nat → List (String × Rat) → String)
    (bloom : List (Int × Rat)) (diff : List (String × Rat))
    (co_id : String) (min_marks : Int) :
    Nat → Int → Int → List QuestionSpec → Except String (List QuestionSpec × Int)
  | 0, _, remaining, plan => .ok (plan, remaining)
  | fuel + 1, allocated, remaining, plan =>
    if allocated < min_marks ∧ 0 < remaining then
      let marks := choose_marks (min_marks - allocated) remaining STANDARD_MARKS
      match map_co_to_unit co_id with
      | none => .error "ValueError: invalid CO id"
      | some u =>
        planCoLoop cb cd bloom diff co_id min_marks fuel (allocated + marks)
          (remaining - marks)
          (plan ++ [{ unit_id := u, co_id := co_id
                      bloom_level := choose_bloom_level cb plan.length bloom
                      difficulty := choose_difficulty cd plan.length diff
                      marks := marks }])
    else .ok (plan, remaining)

/-- Phase 1 (lines 137-162): the CO loops, over `sorted(co_requirements)`. -/
def planPhase1 (cb : Nat → List (Int × Rat) → Int) (cd : Nat → List (String × Rat) → String)
    (bloom : List (Int × Rat)) (diff : List (String × Rat)) :
    List (String × Int) → Int → List QuestionSpec → Except String (List QuestionSpec × Int)
  | [], remaining, plan => .ok (plan, remaining)
  | p :: rest, remaining, plan =>
    match planCoLoop cb cd bloom diff p.1 p.2 remaining.toNat 0 remaining plan with
    | .error e => .error e
    | .ok (plan', remaining') => planPhase1 cb cd bloom diff rest remaining' plan'

/-- Phase-2 inner loop (lines 170-185), keyed on a unit. -/
def planUnitLoop (cb : Nat → List (Int × Rat) → Int) (cd : Nat → List (String × Rat) → String)
    (bloom : List (Int × Rat)) (diff : List (String × Rat))
    (unit_id : String) (min_marks : Int) :
    Nat → Int → Int → List QuestionSpec → Except String (List QuestionSpec × Int)
  | 0, _, remaining, plan => .ok (plan, remaining)
  | fuel + 1, allocated, remaining, plan =>
    if allocated < min_marks ∧ 0 < remaining then
      let marks := choose_marks (min_marks - allocated) remaining STANDARD_MARKS
      match map_unit_to_co unit_id with
      | none => .error "ValueError: invalid unit id"
      | some co =>
        planUnitLoop cb cd bloom diff unit_id min_marks fuel (allocated + marks)
          (remaining - marks)
          (plan ++ [{ unit_id := unit_id, co_id := co
                      bloom_level := choose_bloom_level cb plan.length bloom
                      difficulty := choose_difficulty cd plan.length diff
                      marks := marks }])
    else .ok (plan, remaining)

/-- Phase 2 (lines 165-185): for each sorted unit requirement, count the marks
already planned for that unit, then top it up. -/
def planPhase2 (cb : Nat → List (Int × Rat) → Int) (cd : Nat → List (String × Rat) → String)
    (bloom : List (Int × Rat)) (diff : List (String × Rat)) :
    List (String × Int) → Int → List QuestionSpec → Except String (List QuestionSpec × Int)
  | [], remaining, plan => .ok (plan, remaining)
  | u :: rest, remaining, plan =>
    let allocated := sumSpecMarks (plan.filter (fun s => s.unit_id == u.1))
    match planUnitLoop cb cd bloom diff u.1 u.2 remaining.toNat allocated remaining plan with
    | .error e => .error e
    | .ok (plan', remaining') => planPhase2 cb cd bloom diff rest remaining' plan'

/-- Phase 3 (lines 188-205): fill the remaining budget, cycling CO ids by
`len(plan) % len(co_requirements)` — a `ZeroDivisionError` when the CO map is
empty. -/
def planPhase3 (cb : Nat → List (Int × Rat) → Int) (cd : Nat → List (String × Rat) → String)
    (bloom : List (Int × Rat)) (diff : List (String × Rat))
    (co_requirements : List (String × Int)) :
    Nat → Int → List QuestionSpec → Except String (List QuestionSpec)
  | 0, _, plan => .ok plan
  | fuel + 1, remaining, plan =>
    if 0 < remaining then
      let marks := choose_marks remaining remaining STANDARD_MARKS
      if co_requirements.length = 0 then
        .error "ZeroDivisionError: integer modulo by zero"
      else
        let co_id := (co_requirements.map (fun p => p.1)).getD
          (plan.length % co_requirements.length) ""
        match map_co_to_unit co_id with
        | none => .error "ValueError: invalid CO id"
        | some u =>
          planPhase3 cb cd bloom diff co_requirements fuel (remaining - marks)
            (plan ++ [{ unit_id := u, co_id := co_id
                        bloom_level := choose_bloom_level cb plan.length bloom
                        difficulty := choose_difficulty cd plan.length diff
                        marks := marks }])
    else .ok plan

/-- `_build_generation_plan` (lines 113-207), phases 1-3 composed.  `cb`/`cd`
are the weighted-random oracles. -/
def build_generation_plan (cb : Nat → List (Int × Rat) → Int)
    (cd : Nat → List (String × Rat) → String) (target_marks : Int)
    (co_requirements : List (String × Int)) (bloom : List (Int × Rat))
    (diff : List (String × Rat)) (unit_requirements : List (String × Int)) :
    Except String (List QuestionSpec) :=
  match planPhase1 cb cd bloom diff (sortByKey co_requirements) target_marks [] with
  | .error e => .error e
  | .ok (p1, r1) =>
    match (if unit_requirements = [] then .ok (p1, r1)
           else planPhase2 cb cd bloom diff (sortByKey unit_requirements) r1 p1 :
           Except String (List QuestionSpec × Int)) with
    | .error e => .error e
    | .ok (p2, r2) => planPhase3 cb cd bloom diff co_requirements r2.toNat r2 p2

/-- The production loop of `generate_paper_questions` (lines 81-105): hand
each spec to the external producer; on success record the id and overwrite the
stored marks with the spec's marks (`db.update_question`); on failure log and
skip — no retry, no escaping exception.  `db` is the marks column of the
question table; `produce` is indexed by the spec's position. -/
def runGenerationLoop (produce : Nat → QuestionSpec → Except String Int) :
    List QuestionSpec → Nat → List Int → (Int → Int) → List Int × (Int → Int)
  | [], _, ids, db => (ids, db)
  | spec :: rest, i, ids, db =>
    match produce i spec with
    | .ok qid =>
      runGenerationLoop produce rest (i + 1) (ids ++ [qid])
        (fun j => if j = qid then spec.marks else db j)
    | .error _ => runGenerationLoop produce rest (i + 1) ids db

/-- `FreshPaperGenerator.generate_paper_questions` (lines 34-111): validate,
extract constraints, build the plan, run the production loop.  Returns the
materialized ids and the updated marks table. -/
def generate_paper_questions (produce : Nat → QuestionSpec → Except String Int)
    (cb : Nat → List (Int × Rat) → Int) (cd : Nat → List (String × Rat) → String)
    (bp : PaperBlueprint) (db : Int → Int) :
    Except String (List Int × (Int → Int)) :=
  if bp.validate = false then
    .error "ValueError: Missing required constraint"
  else
    match getIntConstraint bp "marks_total", getStrIntMapD bp "co_coverage",
        getIntRatMapD bp "bloom_distribution", getStrRatMapD bp "difficulty_mix",
        getStrIntMapD bp "unit_coverage" with
    | some target_marks, some coMap, some bloomMap, some diffMap, some unitMap =>
      match build_generation_plan cb cd target_marks coMap bloomMap diffMap unitMap with
      | .error e => .error e
      | .ok plan => .ok (runGenerationLoop produce plan 0 [] db)
    | _, _, _, _, _ => .error "TypeError"

/-! ## Orchestrator (`orchestrator.PaperOrchestrator`) -/

/-- The persisted paper, reduced to the fields the claims observe
(`_save_paper_to_db*` payload; `status` is always `'finalized'`).  The PDF
render that follows persistence is a fire-and-forget external side effect and
is not modelled. -/
structure SavedPaper where
  paper_name : String
  course_code : String
  question_ids : List Int
  status : String
  deriving DecidableEq, Repr

/-- `generate_paper_from_bank` (lines 50-93): run the selector; return `None`
when `result.success` is false, otherwise persist and render.  `.ok none`
models the `return None` path; a raised exception is `.error`. -/
def generate_paper_from_bank (bp : PaperBlueprint) (eligible : List Question)
    (randomize : Bool) (shuffle : List Question → List Question) :
    Except String (Option SavedPaper) :=
  match select_questions bp eligible randomize shuffle with
  | .error e => .error e
  | .ok result =>
    if result.success = false then .ok none
    else
      .ok (some { paper_name := bp.paper_name
                  course_code := bp.course_code
                  question_ids := result.selected_questions.map (fun q => q.id)
                  status := "finalized" })

/-- `generate_paper_hybrid` (lines 138-208): select from the bank; keep the
bank contribution only when `result.success` *and* at least `min_from_bank`
questions were selected; generate fresh questions against the same, full
blueprint whenever marks remain; persist the concatenated id list. -/
def generate_paper_hybrid (produce : Nat → QuestionSpec → Except String Int)
    (cb : Nat → List (Int × Rat) → Int) (cd : Nat → List (String × Rat) → String)
    (bp : PaperBlueprint) (eligible : List Question)
    (shuffle : List Question → List Question) (db : Int → Int)
    (min_from_bank : Int := 3) : Except String SavedPaper :=
  match select_questions bp eligible true shuffle with
  | .error e => .error e
  | .ok result =>
    let bank_questions :=
      if result.success = true ∧ min_from_bank ≤ (result.selected_questions.length : Int)
      then result.selected_questions else []
    match getIntConstraint bp "marks_total" with
    | none => .error "TypeError"
    | some target_marks =>
      let bank_marks := sumMarks bank_questions
      let remaining_marks := target_marks - bank_marks
      match (if 0 < remaining_marks then
               (generate_paper_questions produce cb cd bp db).map (fun r => r.1)
             else .ok [] : Except String (List Int)) with
      | .error e => .error e
      | .ok fresh_question_ids =>
        .ok { paper_name := bp.paper_name
              course_code := bp.course_code
              question_ids := bank_questions.map (fun q => q.id) ++ fresh_question_ids
              status := "finalized" }

/-! ## Selection helper lemmas -/

theorem foldlBest_first_max (sc : Question → Rat) (qs : List Question) (q : Question) :
    ∃ l1 l2, q :: qs = l1 ++ (qs.foldl (fun best c => if sc best < sc c then c else best) q) :: l2
      ∧ (∀ c ∈ l1, sc c < sc (qs.foldl (fun best c => if sc best < sc c then c else best) q))
      ∧ (∀ c ∈ l2, sc c ≤ sc (qs.foldl (fun best c => if sc best < sc c then c else best) q)) := by
  induction qs generalizing q with
  | nil => exact ⟨[], [], rfl, by simp, by simp⟩
  | cons c cs ih =>
    simp only [List.foldl_cons]
    by_cases h : sc q < sc c
    · rw [if_pos h]
      obtain ⟨l1, l2, hdec, hlt, hle⟩ := ih c
      refine ⟨q :: l1, l2, congrArg (fun l => q :: l) hdec, ?_, hle⟩
      intro x hx
      rcases List.mem_cons.mp hx with rfl | hx
      · rcases l1 with _ | ⟨y, l1'⟩
        · rw [List.nil_append] at hdec
          injection hdec with h1 _
          exact h1 ▸ h
        · rw [List.cons_append] at hdec
          injection hdec with h1 _
          exact lt_trans (h1 ▸ h) (hlt y (by simp))
      · exact hlt x hx
    · rw [if_neg h]
      obtain ⟨l1, l2, hdec, hlt, hle⟩ := ih q
      rcases l1 with _ | ⟨y, l1'⟩
      · rw [List.nil_append] at hdec
        injection hdec with h1 h2
        refine ⟨[], c :: cs, ?_, by simp, ?_⟩
        · simp only [List.nil_append]
          rw [← h1]
        · intro x hx
          rcases List.mem_cons.mp hx with rfl | hx
          · exact h1 ▸ not_lt.mp h
          · exact hle x (h2 ▸ hx)
      · rw [List.cons_append] at hdec
        injection hdec with h1 h2
        refine ⟨q :: c :: l1', l2, congrArg (fun l => q :: c :: l) h2, ?_, hle⟩
        intro x hx
        have hq : sc q
            < sc (List.foldl (fun best c => if sc best < sc c then c else best) q cs) :=
          h1 ▸ hlt y (by simp)
        rcases List.mem_cons.mp hx with rfl | hx
        · exact hq
        · rcases List.mem_cons.mp hx with rfl | hx
          · exact lt_of_le_of_lt (not_lt.mp h) hq
          · exact hlt x (by simp [hx])

theorem pickBest_mem {sc : Question → Rat} {l : List Question} {q : Question}
    (h : pickBest sc l = some q) : q ∈ l := by
  cases l with
  | nil => simp [pickBest] at h
  | cons a as =>
    obtain ⟨l1, l2, hdec, _, _⟩ := foldlBest_first_max sc as a
    simp only [pickBest, Option.some.injEq] at h
    rw [hdec, ← h]
    exact List.mem_append_right l1 (List.mem_cons_self _ _)

theorem mem_of_mem_iteFilter {c : Prop} [Decidable c] {p : Question → Bool}
    {l : List Question} {q : Question} (h : q ∈ (if c then l.filter p else l)) : q ∈ l := by
  split at h
  · exact List.mem_of_mem_filter h
  · exact h

theorem find_best_question_marks_le {candidates already_selected : List Question}
    {primary_co unit_id : Option String} {m : Int}
    {prefer_bloom : Option Int} {prefer_difficulty : Option String} {q : Question}
    (hm : m ≠ 0)
    (h : find_best_question candidates already_selected primary_co unit_id (some m)
      prefer_bloom prefer_difficulty = some q) : q.marks ≤ m := by
  simp only [find_best_question] at h
  have h3 := pickBest_mem h
  rw [if_pos (show truthyInt (some m) = true by simp [truthyInt, hm])] at h3
  simpa using (List.mem_filter.mp h3).2

theorem find_best_question_co {candidates already_selected : List Question}
    {co : String} {unit_id : Option String} {max_marks : Option Int}
    {prefer_bloom : Option Int} {prefer_difficulty : Option String} {q : Question}
    (hco : co ≠ "")
    (h : find_best_question candidates already_selected (some co) unit_id max_marks
      prefer_bloom prefer_difficulty = some q) : q.primary_co = co := by
  simp only [find_best_question] at h
  have h3 := pickBest_mem h
  have h2 := mem_of_mem_iteFilter h3
  have h1 := mem_of_mem_iteFilter h2
  rw [if_pos (show truthyStr (some co) = true by simp [truthyStr, hco])] at h1
  simpa using (List.mem_filter.mp h1).2

/-! ## Budget-bound lemmas -/

theorem sumMarks_append (l : List Question) (q : Question) :
    sumMarks (l ++ [q]) = sumMarks l + q.marks := by
  simp [sumMarks]

theorem phase2Loop_budget (bloom : List (Int × Rat)) (diff : List (String × Rat)) :
    ∀ (fuel : Nat) (st : SelState), 0 ≤ st.remaining →
      sumMarks (phase2Loop bloom diff fuel st).selected
          + (phase2Loop bloom diff fuel st).remaining
        = sumMarks st.selected + st.remaining
      ∧ 0 ≤ (phase2Loop bloom diff fuel st).remaining := by
  intro fuel
  induction fuel with
  | zero => intro st h; exact ⟨rfl, h⟩
  | succ n ih =>
    intro st h
    rw [phase2Loop]
    split
    · rename_i hcond
      obtain ⟨hpos, -⟩ := hcond
      split
      · exact ⟨rfl, h⟩
      · rename_i q hq
        have hle : q.marks ≤ st.remaining :=
          find_best_question_marks_le (by omega) hq
        obtain ⟨ih1, ih2⟩ := ih
          { st with selected := st.selected ++ [q],
                    candidates := st.candidates.erase q,
                    remaining := st.remaining - q.marks } (by simp; omega)
        refine ⟨?_, ih2⟩
        rw [ih1]
        show sumMarks (st.selected ++ [q]) + (st.remaining - q.marks)
          = sumMarks st.selected + st.remaining
        rw [sumMarks_append]
        ring
    · exact ⟨rfl, h⟩

theorem selection_result_of_ok {bp : PaperBlueprint} {eligible selected : List Question}
    {res : SelectionResult} (h : selection_result_of bp eligible selected = .ok res) :
    res.selected_questions = selected ∨ res.selected_questions = [] := by
  unfold selection_result_of at h
  split at h
  · injection h with h
    subst h
    right; rfl
  · split at h
    · exact absurd h (by simp)
    · injection h with h
      subst h
      left; rfl

theorem selection_result_of_success {bp : PaperBlueprint} {eligible selected : List Question}
    {res : SelectionResult} (h : selection_result_of bp eligible selected = .ok res)
    (hs : res.success = true) :
    res.selected_questions = selected
      ∧ ∃ cs, verify_constraints selected bp = some cs ∧ cs.all (fun p => p.2) = true := by
  unfold selection_result_of at h
  split at h
  · injection h with h
    subst h
    simp at hs
  · split at h
    · exact absurd h (by simp)
    · rename_i cs hcs
      injection h with h
      subst h
      exact ⟨rfl, cs, hcs, hs⟩

theorem greedy_budget_no_mins (eligible : List Question) (T : Int)
    (bM : List (Int × Rat)) (dM : List (String × Rat)) (randomize : Bool)
    (shuffle : List Question → List Question) (hT : 0 ≤ T) :
    sumMarks (greedy_select_with_backtracking eligible T [] bM dM [] randomize shuffle) ≤ T := by
  simp only [greedy_select_with_backtracking, List.foldl_nil, List.map_nil]
  obtain ⟨e, hnn⟩ := phase2Loop_budget bM dM
    (if randomize = true then shuffle eligible else eligible).length
    { selected := [], candidates := (if randomize = true then shuffle eligible else eligible),
      remaining := T, co_fulfilled := [], unit_fulfilled := [] } hT
  simp only [show sumMarks ([] : List Question) = 0 from rfl, zero_add] at e
  omega

/-! ### C2: selection never exceeds the budget — corrected -/

/-- Blueprint of the C2 counterexample: budget 3, CO1 minimum 5. -/
def bpC2cex : PaperBlueprint :=
  { paper_name := "Midterm Examination", course_code := "CS101", constraints :=
      [ { constraint_type := "marks_total", value := .intVal 3 },
        { constraint_type := "duration", value := .intVal 90 },
        { constraint_type := "co_coverage", value := .strIntMap [("CO1", 5)] } ] }

/-- A 3-mark CO1 question. -/
def qC2a : Question :=
  { id := 1, marks := 3, primary_co := "CO1", unit_id := "unit_1", bloom_level := 2,
    difficulty := "medium", quality_score := 80 }

/-- A 4-mark CO1 question. -/
def qC2b : Question :=
  { id := 2, marks := 4, primary_co := "CO1", unit_id := "unit_1", bloom_level := 2,
    difficulty := "medium", quality_score := 80 }

/-- C2 counterexample: with budget T = 3 and CO1 minimum 5 over the pool
`[qC2a (3 marks), qC2b (4 marks)]`, the selector first takes `qC2a` (budget
left 0), and on the next CO-phase iteration `if max_marks:` treats the zero
remaining budget as *no cap*, so `qC2b` is also taken: total 7 > 3.  The
claim "selection never exceeds the requested budget, in every phase" is
false on the code. -/
theorem select_budget_exceeded_cex :
    (select_questions bpC2cex [qC2a, qC2b] false id).toOption.map
        (fun r => sumMarks r.selected_questions) = some 7
      ∧ getIntConstraint bpC2cex "marks_total" = some 3
      ∧ ¬ ((7 : Int) ≤ 3) := by
  refine ⟨by decide, by decide, by decide⟩

/-- C2 (amended): selection never exceeds a non-negative budget *provided the
blueprint carries no category-minimum (`co_coverage`) and no unit-minimum
(`unit_coverage`) constraint*; with such hard minimums present, the
hard-constraint phases can overshoot once the remaining budget hits exactly
zero, because the zero mark cap is dropped (see the counterexample). -/
theorem select_budget_bound (bp : PaperBlueprint) (eligible : List Question)
    (randomize : Bool) (shuffle : List Question → List Question) (res : SelectionResult)
    (T : Int) (hT : getIntConstraint bp "marks_total" = some T) (hTnn : 0 ≤ T)
    (hco : bp.get_constraint "co_coverage" = none)
    (hunit : bp.get_constraint "unit_coverage" = none)
    (hsel : select_questions bp eligible randomize shuffle = .ok res) :
    sumMarks res.selected_questions ≤ T := by
  have hcoD : getStrIntMapD bp "co_coverage" = some [] := by simp [getStrIntMapD, hco]
  have hunitD : getStrIntMapD bp "unit_coverage" = some [] := by simp [getStrIntMapD, hunit]
  unfold select_questions at hsel
  split at hsel
  · exact absurd hsel (by simp)
  · split at hsel
    · injection hsel with h
      subst h
      simpa [sumMarks] using hTnn
    · rw [hT, hcoD, hunitD] at hsel
      split at hsel
      · rename_i tM cM bM dM uM h1 h2 h3 h4 h5
        injection h1 with h1
        injection h2 with h2
        injection h5 with h5
        subst h1; subst h2; subst h5
        rcases selection_result_of_ok hsel with h | h
        · rw [h]
          exact greedy_budget_no_mins eligible T bM dM randomize shuffle hTnn
        · rw [h]
          simpa [sumMarks] using hTnn
      · exact absurd hsel (by simp)

/-- Constraint-minimum-free blueprint for the C2 witness: budget 4. -/
def bpC2w : PaperBlueprint :=
  { paper_name := "Quiz", course_code := "CS101", constraints :=
      [ { constraint_type := "marks_total", value := .intVal 4 },
        { constraint_type := "duration", value := .intVal 30 } ] }

/-- The single 3-mark question of the C2 witness pool. -/
def qC2w : Question :=
  { id := 11, marks := 3, primary_co := "CO1", unit_id := "unit_1", bloom_level := 2,
    difficulty := "medium", quality_score := 70 }

/-- The selection result produced on the C2 witness input. -/
def resC2w : SelectionResult :=
  { success := true, selected_questions := [qC2w], total_marks := 3,
    constraints_satisfied :=
      [("total_marks", true), ("bloom_distribution", true), ("difficulty_mix", true)],
    selection_metadata := [("eligible_count", .int 1), ("selected_count", .int 1)] }

/-- Witness for the amended C2 theorem at a concrete input. -/
theorem select_budget_bound_witness : sumMarks resC2w.selected_questions ≤ 4 :=
  select_budget_bound bpC2w [qC2w] false id resC2w 4 (by decide) (by decide)
    (by decide) (by decide) rfl

/-! ## Verification-map lemmas -/

theorem verifyTotalEntries_keys {selected : List Question} {bp : PaperBlueprint}
    {l : List (String × Bool)} (h : verifyTotalEntries selected bp = some l) :
    ∀ p ∈ l, p.1 = "total_marks" := by
  unfold verifyTotalEntries at h
  split at h
  · injection h with h
    subst h
    simp
  · rename_i c hc
    rcases hv : c.value.asInt with _ | T <;> rw [hv] at h <;> simp at h
    subst h
    simp

theorem verifyCoEntries_keys {selected : List Question} {bp : PaperBlueprint}
    {l : List (String × Bool)} (h : verifyCoEntries selected bp = some l) :
    ∀ p ∈ l, p.1 = "co_coverage" := by
  unfold verifyCoEntries at h
  split at h
  · injection h with h
    subst h
    simp
  · rename_i c hc
    rcases hv : c.value.asStrIntMap with _ | m <;> rw [hv] at h <;> simp at h
    subst h
    simp

theorem verifyUnitEntries_keys {selected : List Question} {bp : PaperBlueprint}
    {l : List (String × Bool)} (h : verifyUnitEntries selected bp = some l) :
    ∀ p ∈ l, p.1 = "unit_coverage" := by
  unfold verifyUnitEntries at h
  split at h
  · injection h with h
    subst h
    simp
  · rename_i c hc
    rcases hv : c.value.asStrIntMap with _ | m <;> rw [hv] at h <;> simp at h
    subst h
    simp

theorem lookup_append_of_keys_ne {l rest : List (String × Bool)} {k : String}
    (hk : ∀ p ∈ l, p.1 ≠ k) : (l ++ rest).lookup k = rest.lookup k := by
  induction l with
  | nil => rfl
  | cons a as ih =>
    rw [List.cons_append, List.lookup_cons]
    cases hbeq : k == a.1 with
    | true =>
      exact absurd (eq_of_beq hbeq).symm (hk a (List.mem_cons_self a as))
    | false =>
      simp only [hbeq]
      exact ih (fun p hp => hk p (List.mem_cons_of_mem a hp))

/-- C8: for every non-empty selection and every blueprint, the verification
map sends `bloom_distribution` and `difficulty_mix` to `true` unconditionally
(selector lines 433-435), regardless of the selected questions. -/
theorem verify_soft_constraints_always_true (selected : List Question)
    (bp : PaperBlueprint) (m : List (String × Bool)) (hne : selected ≠ [])
    (h : verify_constraints selected bp = some m) :
    m.lookup "bloom_distribution" = some true ∧ m.lookup "difficulty_mix" = some true := by
  unfold verify_constraints at h
  split at h
  · rename_i l1 l2 l3 h1 h2 h3
    injection h with h
    subst h
    have k1 := verifyTotalEntries_keys h1
    have k2 := verifyCoEntries_keys h2
    have k3 := verifyUnitEntries_keys h3
    constructor
    · rw [List.append_assoc, List.append_assoc,
        lookup_append_of_keys_ne (fun p hp => by simp [k1 p hp]),
        lookup_append_of_keys_ne (fun p hp => by simp [k2 p hp]),
        lookup_append_of_keys_ne (fun p hp => by simp [k3 p hp])]
      rfl
    · rw [List.append_assoc, List.append_assoc,
        lookup_append_of_keys_ne (fun p hp => by simp [k1 p hp]),
        lookup_append_of_keys_ne (fun p hp => by simp [k2 p hp]),
        lookup_append_of_keys_ne (fun p hp => by simp [k3 p hp])]
      rfl
  · exact absurd h (by simp)

/-- Blueprint used by the C8 witness. -/
def bpC8 : PaperBlueprint :=
  { paper_name := "Quiz", course_code := "CS200", constraints :=
      [ { constraint_type := "marks_total", value := .intVal 10 },
        { constraint_type := "duration", value := .intVal 30 } ] }

/-- Question used by the C8 witness. -/
def qC8 : Question :=
  { id := 21, marks := 5, primary_co := "CO1", unit_id := "unit_1", bloom_level := 3,
    difficulty := "hard", quality_score := 60 }

/-- Witness for C8 at a concrete non-empty selection. -/
theorem verify_soft_constraints_always_true_witness :
    ([("total_marks", true), ("bloom_distribution", true), ("difficulty_mix", true)]
        : List (String × Bool)).lookup "bloom_distribution" = some true
      ∧ ([("total_marks", true), ("bloom_distribution", true), ("difficulty_mix", true)]
        : List (String × Bool)).lookup "difficulty_mix" = some true :=
  verify_soft_constraints_always_true [qC8] bpC8
    [("total_marks", true), ("bloom_distribution", true), ("difficulty_mix", true)]
    (by decide) (by decide)

/-! ### C9: empty eligible pool — confirmed -/

/-- C9: for every valid blueprint, an empty eligible pool makes `select`
return at once with `success = false`, an empty selection, zero total marks
and the `no_eligible_questions` diagnostic; no selection phase runs and no
retry occurs (selector lines 81-89). -/
theorem select_empty_pool_result (bp : PaperBlueprint) (randomize : Bool)
    (shuffle : List Question → List Question) (hv : bp.validate = true) :
    select_questions bp [] randomize shuffle
      = .ok { success := false, selected_questions := [], total_marks := 0,
              constraints_satisfied := [],
              selection_metadata := [("error", .str "no_eligible_questions")] } := by
  simp [select_questions, hv]

/-- Blueprint used by the C9 witness. -/
def bpC9 : PaperBlueprint :=
  { paper_name := "Final Examination", course_code := "CS301", constraints :=
      [ { constraint_type := "marks_total", value := .intVal 50 },
        { constraint_type := "duration", value := .intVal 90 } ] }

/-- Witness for C9 at a concrete valid blueprint. -/
theorem select_empty_pool_result_witness :
    select_questions bpC9 [] true id
      = .ok { success := false, selected_questions := [], total_marks := 0,
              constraints_satisfied := [],
              selection_metadata := [("error", .str "no_eligible_questions")] } :=
  select_empty_pool_result bpC9 true id (by decide)

/-! ### C4: bank-only abort condition — corrected -/

/-- Blueprint of the C4 counterexample: budget 10, CO1 minimum 20 (cannot be
met by the pool). -/
def bpC4cex : PaperBlueprint :=
  { paper_name := "Midterm Examination", course_code := "CS102", constraints :=
      [ { constraint_type := "marks_total", value := .intVal 10 },
        { constraint_type := "duration", value := .intVal 90 },
        { constraint_type := "co_coverage", value := .strIntMap [("CO1", 20)] } ] }

/-- The single eligible question of the C4 counterexample. -/
def qC4cex : Question :=
  { id := 7, marks := 5, primary_co := "CO1", unit_id := "unit_1", bloom_level := 2,
    difficulty := "medium", quality_score := 80 }

/-- C4 counterexample: the selector returns one selected question with
`success = false` (CO minimum unmet), and `generate_paper_from_bank` returns
`None` — refuting the claim that null is returned *only* on an empty
selection (orchestrator line 76 tests `result.success`, not emptiness). -/
theorem bank_only_null_with_nonempty_selection_cex :
    (select_questions bpC4cex [qC4cex] false id).toOption.map
        (fun r => (r.success, r.selected_questions.length)) = some (false, 1)
      ∧ generate_paper_from_bank bpC4cex [qC4cex] false id = .ok none :=
  ⟨by decide, rfl⟩

/-- C4 (amended): bank-only assembly returns null exactly when the selector
reported `success = false` — even when questions were selected; when
`success = true` the paper is persisted (and rendered) with the selected
question ids. -/
theorem bank_only_null_iff_not_success (bp : PaperBlueprint) (eligible : List Question)
    (randomize : Bool) (shuffle : List Question → List Question) (res : SelectionResult)
    (hsel : select_questions bp eligible randomize shuffle = .ok res) :
    (generate_paper_from_bank bp eligible randomize shuffle = .ok none ↔ res.success = false)
    ∧ (res.success = true →
        generate_paper_from_bank bp eligible randomize shuffle
          = .ok (some { paper_name := bp.paper_name, course_code := bp.course_code,
                        question_ids := res.selected_questions.map (fun q => q.id),
                        status := "finalized" })) := by
  unfold generate_paper_from_bank
  rw [hsel]
  by_cases hs : res.success = false
  · simp [hs]
  · have hs' : res.success = true := by
      revert hs
      cases res.success <;> simp
    simp [hs']

/-- Blueprint of the C4 witness: budget 5, no hard minimums. -/
def bpC4w : PaperBlueprint :=
  { paper_name := "Quiz", course_code := "CS102", constraints :=
      [ { constraint_type := "marks_total", value := .intVal 5 },
        { constraint_type := "duration", value := .intVal 30 } ] }

/-- The single question of the C4 witness pool. -/
def qC4w : Question :=
  { id := 41, marks := 5, primary_co := "CO1", unit_id := "unit_1", bloom_level := 2,
    difficulty := "medium", quality_score := 65 }

/-- The selection result of the C4 witness run (success = true). -/
def resC4w : SelectionResult :=
  { success := true, selected_questions := [qC4w], total_marks := 5,
    constraints_satisfied :=
      [("total_marks", true), ("bloom_distribution", true), ("difficulty_mix", true)],
    selection_metadata := [("eligible_count", .int 1), ("selected_count", .int 1)] }

/-- Witness for the amended C4 theorem at a concrete successful run. -/
theorem bank_only_null_iff_not_success_witness :
    (generate_paper_from_bank bpC4w [qC4w] false id = .ok none ↔ resC4w.success = false)
    ∧ (resC4w.success = true →
        generate_paper_from_bank bpC4w [qC4w] false id
          = .ok (some { paper_name := bpC4w.paper_name, course_code := bpC4w.course_code,
                        question_ids := resC4w.selected_questions.map (fun q => q.id),
                        status := "finalized" })) :=
  bank_only_null_iff_not_success bpC4w [qC4w] false id resC4w rfl

/-! ### C7: determinism without randomization — confirmed -/

/-- C7: with `randomize = false` no shuffle occurs — two `select` calls with
identical pool and blueprint agree for *any* two states of the process RNG —
and `_find_best_question` breaks score ties by first position in the current
candidate order: the returned best element is preceded only by strictly
lower-scoring candidates and followed only by candidates scoring at most as
much. -/
theorem select_deterministic_and_first_position_ties :
    (∀ (bp : PaperBlueprint) (eligible : List Question)
        (s1 s2 : List Question → List Question),
        select_questions bp eligible false s1 = select_questions bp eligible false s2)
    ∧ (∀ (sc : Question → Rat) (q : Question) (qs : List Question),
        ∃ b l1 l2, pickBest sc (q :: qs) = some b ∧ q :: qs = l1 ++ b :: l2
          ∧ (∀ c ∈ l1, sc c < sc b) ∧ (∀ c ∈ l2, sc c ≤ sc b)) := by
  constructor
  · intro bp eligible s1 s2
    rfl
  · intro sc q qs
    obtain ⟨l1, l2, hdec, hlt, hle⟩ := foldlBest_first_max sc qs q
    exact ⟨_, l1, l2, rfl, hdec, hlt, hle⟩

/-! ### C1: success implies budget tolerance and CO minimums — confirmed -/

theorem verify_total_of_success {selected : List Question} {bp : PaperBlueprint}
    {cs : List (String × Bool)} {T : Int}
    (hcs : verify_constraints selected bp = some cs)
    (hall : cs.all (fun p => p.2) = true)
    (hT : getIntConstraint bp "marks_total" = some T) :
    (sumMarks selected - T).natAbs ≤ 5 := by
  rcases hc : bp.get_constraint "marks_total" with _ | c
  · simp [getIntConstraint, hc] at hT
  · simp only [getIntConstraint, hc, Option.some_bind] at hT
    have h1 : verifyTotalEntries selected bp
        = some [("total_marks", decide ((sumMarks selected - T).natAbs ≤ 5))] := by
      unfold verifyTotalEntries
      rw [hc]
      simp [hT]
    unfold verify_constraints at hcs
    split at hcs
    · rename_i l1 l2 l3 e1 e2 e3
      rw [h1] at e1
      injection e1 with e1
      injection hcs with hcs
      subst hcs
      rw [List.all_eq_true] at hall
      have := hall ("total_marks", decide ((sumMarks selected - T).natAbs ≤ 5))
        (by rw [← e1]; simp)
      exact of_decide_eq_true this
    · exact absurd hcs (by simp)

theorem verify_co_of_success {selected : List Question} {bp : PaperBlueprint}
    {cs : List (String × Bool)} {coMap : List (String × Int)}
    (hcs : verify_constraints selected bp = some cs)
    (hall : cs.all (fun p => p.2) = true)
    (hco : (bp.get_constraint "co_coverage").bind (fun c => c.value.asStrIntMap)
      = some coMap) :
    ∀ p ∈ coMap, p.2 ≤ coActualGet selected p.1 := by
  rcases hc : bp.get_constraint "co_coverage" with _ | c
  · simp [hc] at hco
  · simp only [hc, Option.some_bind] at hco
    have h2 : verifyCoEntries selected bp
        = some [("co_coverage", coMap.all (fun p => decide (p.2 ≤ coActualGet selected p.1)))] := by
      unfold verifyCoEntries
      rw [hc]
      simp [hco]
    unfold verify_constraints at hcs
    split at hcs
    · rename_i l1 l2 l3 e1 e2 e3
      rw [h2] at e2
      injection e2 with e2
      injection hcs with hcs
      subst hcs
      rw [List.all_eq_true] at hall
      have := hall ("co_coverage", coMap.all (fun p => decide (p.2 ≤ coActualGet selected p.1)))
        (by rw [← e2]; simp)
      have hco_all : coMap.all (fun p => decide (p.2 ≤ coActualGet selected p.1)) = true :=
        this
      rw [List.all_eq_true] at hco_all
      intro p hp
      exact of_decide_eq_true (hco_all p hp)
    · exact absurd hcs (by simp)

/-- C1: whenever `select` reports `success = true` for a blueprint with total
budget `T`, the selected questions sum to within ±5 of `T`, and every entry
`(cat, minMarks)` of the blueprint's `co_coverage` constraint is covered: the
selected questions with that primary CO sum to at least `minMarks`. -/
theorem select_success_implies_budget_and_co_coverage
    (bp : PaperBlueprint) (eligible : List Question) (randomize : Bool)
    (shuffle : List Question → List Question) (res : SelectionResult) (T : Int)
    (hsel : select_questions bp eligible randomize shuffle = .ok res)
    (hT : getIntConstraint bp "marks_total" = some T)
    (hsucc : res.success = true) :
    (sumMarks res.selected_questions - T).natAbs ≤ 5
    ∧ ∀ (coMap : List (String × Int)),
        (bp.get_constraint "co_coverage").bind (fun c => c.value.asStrIntMap) = some coMap →
        ∀ p ∈ coMap, p.2 ≤ coActualGet res.selected_questions p.1 := by
  unfold select_questions at hsel
  split at hsel
  · exact absurd hsel (by simp)
  · split at hsel
    · injection hsel with h
      subst h
      simp at hsucc
    · split at hsel
      · rename_i tM cM bM dM uM h1 h2 h3 h4 h5
        obtain ⟨hres, cs, hcs, hall⟩ := selection_result_of_success hsel hsucc
        rw [hres]
        constructor
        · exact verify_total_of_success hcs hall hT
        · intro coMap hco
          exact verify_co_of_success hcs hall hco
      · exact absurd hsel (by simp)

/-- Blueprint of the C1 witness: budget 10, CO minimums 2/2/2. -/
def bpC1w : PaperBlueprint :=
  { paper_name := "Midterm Examination", course_code := "CS101", constraints :=
      [ { constraint_type := "marks_total", value := .intVal 10 },
        { constraint_type := "duration", value := .intVal 90 },
        { constraint_type := "co_coverage",
          value := .strIntMap [("CO1", 2), ("CO2", 2), ("CO3", 2)] } ] }

/-- A 2-mark question with the given id and primary CO (C1 witness pool). -/
def qC1 (i : Int) (co : String) : Question :=
  { id := i, marks := 2, primary_co := co, unit_id := "unit_1", bloom_level := 2,
    difficulty := "medium", quality_score := 50 }

/-- The selection result of the C1 witness run. -/
def resC1w : SelectionResult :=
  { success := true,
    selected_questions := [qC1 1 "CO1", qC1 2 "CO2", qC1 3 "CO3"],
    total_marks := 6,
    constraints_satisfied :=
      [("total_marks", true), ("co_coverage", true),
       ("bloom_distribution", true), ("difficulty_mix", true)],
    selection_metadata := [("eligible_count", .int 3), ("selected_count", .int 3)] }

/-- Witness for C1 at a concrete successful run. -/
theorem select_success_implies_budget_and_co_coverage_witness :
    (sumMarks resC1w.selected_questions - 10).natAbs ≤ 5
    ∧ ∀ (coMap : List (String × Int)),
        (bpC1w.get_constraint "co_coverage").bind (fun c => c.value.asStrIntMap) = some coMap →
        ∀ p ∈ coMap, p.2 ≤ coActualGet resC1w.selected_questions p.1 :=
  select_success_implies_budget_and_co_coverage bpC1w
    [qC1 1 "CO1", qC1 2 "CO2", qC1 3 "CO3"] false id resC1w 10 rfl (by decide) rfl

/-! ## Plan-builder lemmas and claims C3, C10 -/

theorem sumSpecMarks_append (l : List QuestionSpec) (s : QuestionSpec) :
    sumSpecMarks (l ++ [s]) = sumSpecMarks l + s.marks := by
  simp [sumSpecMarks]

theorem choose_marks_bounds (needed available : Int) (h : 1 ≤ available) :
    1 ≤ choose_marks needed available STANDARD_MARKS
    ∧ choose_marks needed available STANDARD_MARKS ≤ available := by
  unfold choose_marks
  cases hf : STANDARD_MARKS.reverse.find?
      (fun m => decide (m ≤ needed) && decide (m ≤ available)) with
  | none =>
    constructor
    · exact le_min (by norm_num) h
    · exact min_le_right 2 available
  | some m =>
    have hmem : m ∈ STANDARD_MARKS.reverse := List.mem_of_find?_eq_some hf
    have hpred := List.find?_some hf
    rw [List.mem_reverse] at hmem
    simp only [Bool.and_eq_true, decide_eq_true_eq] at hpred
    constructor
    · have : m = 2 ∨ m = 5 ∨ m = 10 ∨ m = 16 := by simpa [STANDARD_MARKS] using hmem
      rcases this with rfl | rfl | rfl | rfl <;> norm_num
    · exact hpred.2

theorem mem_insertSortedByKey (x y : String × Int) (l : List (String × Int)) :
    y ∈ insertSortedByKey x l ↔ y = x ∨ y ∈ l := by
  induction l with
  | nil => simp [insertSortedByKey]
  | cons a as ih =>
    unfold insertSortedByKey
    split
    · simp [List.mem_cons]
    · simp [List.mem_cons, ih]
      tauto

theorem mem_sortByKey (y : String × Int) (l : List (String × Int)) :
    y ∈ sortByKey l ↔ y ∈ l := by
  induction l with
  | nil => simp [sortByKey]
  | cons a as ih =>
    simp [sortByKey, mem_insertSortedByKey, ih]

theorem getD_mem {l : List String} {n : Nat} {d : String} (h : n < l.length) :
    l.getD n d ∈ l := by
  induction l generalizing n with
  | nil => simp at h
  | cons a as ih =>
    cases n with
    | zero => simp [List.getD]
    | succ k =>
      exact List.mem_cons_of_mem a (ih (by simpa using h))

theorem planCoLoop_spec (cb : Nat → List (Int × Rat) → Int)
    (cd : Nat → List (String × Rat) → String) (bloom : List (Int × Rat))
    (diff : List (String × Rat)) (co_id : String) (min_marks : Int)
    (hparse : (map_co_to_unit co_id).isSome) :
    ∀ (fuel : Nat) (allocated remaining : Int) (plan : List QuestionSpec),
    0 ≤ remaining →
    ∃ plan' remaining',
      planCoLoop cb cd bloom diff co_id min_marks fuel allocated remaining plan
        = .ok (plan', remaining')
      ∧ sumSpecMarks plan' + remaining' = sumSpecMarks plan + remaining
      ∧ 0 ≤ remaining' := by
  intro fuel
  induction fuel with
  | zero => intro a r p h; exact ⟨p, r, rfl, rfl, h⟩
  | succ n ih =>
    intro a r p h
    rw [planCoLoop]
    split
    · rename_i hcond
      obtain ⟨hlt, hpos⟩ := hcond
      obtain ⟨u, hu⟩ := Option.isSome_iff_exists.mp hparse
      rw [hu]
      obtain ⟨hm1, hm2⟩ := choose_marks_bounds (min_marks - a) r (by omega)
      obtain ⟨p', r', heq, hsum, hnn⟩ := ih
        (a + choose_marks (min_marks - a) r STANDARD_MARKS)
        (r - choose_marks (min_marks - a) r STANDARD_MARKS)
        (p ++ [{ unit_id := u, co_id := co_id
                 bloom_level := choose_bloom_level cb p.length bloom
                 difficulty := choose_difficulty cd p.length diff
                 marks := choose_marks (min_marks - a) r STANDARD_MARKS }])
        (by omega)
      refine ⟨p', r', heq, ?_, hnn⟩
      rw [hsum, sumSpecMarks_append]
      ring
    · exact ⟨p, r, rfl, rfl, h⟩

theorem planUnitLoop_spec (cb : Nat → List (Int × Rat) → Int)
    (cd : Nat → List (String × Rat) → String) (bloom : List (Int × Rat))
    (diff : List (String × Rat)) (unit_id : String) (min_marks : Int)
    (hparse : (map_unit_to_co unit_id).isSome) :
    ∀ (fuel : Nat) (allocated remaining : Int) (plan : List QuestionSpec),
    0 ≤ remaining →
    ∃ plan' remaining',
      planUnitLoop cb cd bloom diff unit_id min_marks fuel allocated remaining plan
        = .ok (plan', remaining')
      ∧ sumSpecMarks plan' + remaining' = sumSpecMarks plan + remaining
      ∧ 0 ≤ remaining' := by
  intro fuel
  induction fuel with
  | zero => intro a r p h; exact ⟨p, r, rfl, rfl, h⟩
  | succ n ih =>
    intro a r p h
    rw [planUnitLoop]
    split
    · rename_i hcond
      obtain ⟨hlt, hpos⟩ := hcond
      obtain ⟨co, hco⟩ := Option.isSome_iff_exists.mp hparse
      rw [hco]
      obtain ⟨hm1, hm2⟩ := choose_marks_bounds (min_marks - a) r (by omega)
      obtain ⟨p', r', heq, hsum, hnn⟩ := ih
        (a + choose_marks (min_marks - a) r STANDARD_MARKS)
        (r - choose_marks (min_marks - a) r STANDARD_MARKS)
        (p ++ [{ unit_id := unit_id, co_id := co
                 bloom_level := choose_bloom_level cb p.length bloom
                 difficulty := choose_difficulty cd p.length diff
                 marks := choose_marks (min_marks - a) r STANDARD_MARKS }])
        (by omega)
      refine ⟨p', r', heq, ?_, hnn⟩
      rw [hsum, sumSpecMarks_append]
      ring
    · exact ⟨p, r, rfl, rfl, h⟩

theorem planPhase1_spec (cb : Nat → List (Int × Rat) → Int)
    (cd : Nat → List (String × Rat) → String) (bloom : List (Int × Rat))
    (diff : List (String × Rat)) :
    ∀ (l : List (String × Int)) (remaining : Int) (plan : List QuestionSpec),
    (∀ p ∈ l, (map_co_to_unit p.1).isSome) → 0 ≤ remaining →
    ∃ plan' remaining', planPhase1 cb cd bloom diff l remaining plan = .ok (plan', remaining')
      ∧ sumSpecMarks plan' + remaining' = sumSpecMarks plan + remaining
      ∧ 0 ≤ remaining' := by
  intro l
  induction l with
  | nil => intro r p _ h; exact ⟨p, r, rfl, rfl, h⟩
  | cons a as ih =>
    intro r p hparse h
    obtain ⟨p1, r1, h1, hs1, hn1⟩ := planCoLoop_spec cb cd bloom diff a.1 a.2
      (hparse a (List.mem_cons_self a as)) r.toNat 0 r p h
    rw [planPhase1, h1]
    obtain ⟨p2, r2, h2, hs2, hn2⟩ := ih r1 p1
      (fun q hq => hparse q (List.mem_cons_of_mem a hq)) hn1
    exact ⟨p2, r2, h2, by omega, hn2⟩

theorem planPhase2_spec (cb : Nat → List (Int × Rat) → Int)
    (cd : Nat → List (String × Rat) → String) (bloom : List (Int × Rat))
    (diff : List (String × Rat)) :
    ∀ (l : List (String × Int)) (remaining : Int) (plan : List QuestionSpec),
    (∀ p ∈ l, (map_unit_to_co p.1).isSome) → 0 ≤ remaining →
    ∃ plan' remaining', planPhase2 cb cd bloom diff l remaining plan = .ok (plan', remaining')
      ∧ sumSpecMarks plan' + remaining' = sumSpecMarks plan + remaining
      ∧ 0 ≤ remaining' := by
  intro l
  induction l with
  | nil => intro r p _ h; exact ⟨p, r, rfl, rfl, h⟩
  | cons a as ih =>
    intro r p hparse h
    obtain ⟨p1, r1, h1, hs1, hn1⟩ := planUnitLoop_spec cb cd bloom diff a.1 a.2
      (hparse a (List.mem_cons_self a as)) r.toNat
      (sumSpecMarks (p.filter (fun s => s.unit_id == a.1))) r p h
    rw [planPhase2, h1]
    obtain ⟨p2, r2, h2, hs2, hn2⟩ := ih r1 p1
      (fun q hq => hparse q (List.mem_cons_of_mem a hq)) hn1
    exact ⟨p2, r2, h2, by omega, hn2⟩

theorem planPhase3_spec (cb : Nat → List (Int × Rat) → Int)
    (cd : Nat → List (String × Rat) → String) (bloom : List (Int × Rat))
    (diff : List (String × Rat)) (co_requirements : List (String × Int))
    (hne : co_requirements ≠ [])
    (hparse : ∀ p ∈ co_requirements, (map_co_to_unit p.1).isSome) :
    ∀ (fuel : Nat) (remaining : Int) (plan : List QuestionSpec),
    0 ≤ remaining → remaining.toNat ≤ fuel →
    ∃ plan', planPhase3 cb cd bloom diff co_requirements fuel remaining plan = .ok plan'
      ∧ sumSpecMarks plan' = sumSpecMarks plan + remaining := by
  intro fuel
  induction fuel with
  | zero =>
    intro r p h hf
    have hr : r = 0 := by omega
    subst hr
    exact ⟨p, rfl, by omega⟩
  | succ n ih =>
    intro r p h hf
    rw [planPhase3]
    split
    · rename_i hpos
      obtain ⟨hm1, hm2⟩ := choose_marks_bounds r r (by omega)
      rw [if_neg (by simpa [List.length_eq_zero] using hne)]
      have hlenpos : 0 < co_requirements.length := List.length_pos.mpr hne
      have hmem : ((co_requirements.map (fun p => p.1)).getD
          (p.length % co_requirements.length) "") ∈ co_requirements.map (fun p => p.1) :=
        getD_mem (by simpa using Nat.mod_lt p.length hlenpos)
      obtain ⟨pr, hpr, hpr2⟩ := List.mem_map.mp hmem
      obtain ⟨u, hu⟩ := Option.isSome_iff_exists.mp (hpr2 ▸ hparse pr hpr)
      simp only [hu]
      obtain ⟨p', heq, hsum⟩ := ih (r - choose_marks r r STANDARD_MARKS)
        (p ++ [{ unit_id := u
                 co_id := (co_requirements.map (fun p => p.1)).getD
                   (p.length % co_requirements.length) ""
                 bloom_level := choose_bloom_level cb p.length bloom
                 difficulty := choose_difficulty cd p.length diff
                 marks := choose_marks r r STANDARD_MARKS }])
        (by omega) (by omega)
      refine ⟨p', heq, ?_⟩
      rw [hsum, sumSpecMarks_append]
      ring
    · rename_i hpos
      have hr : r = 0 := by omega
      subst hr
      exact ⟨p, rfl, by omega⟩

/-! ### C3: plan totals equal the target — corrected -/

/-- C3 counterexample: for target 2 with *no* CO requirements (and no unit
requirements), the plan builder does not return a plan at all — phase 3
divides by the length of the empty CO list and raises, so no plan summing to
the target exists, contradicting "for every constraint configuration". -/
theorem build_plan_empty_co_no_plan_cex :
    build_generation_plan (fun _ _ => 2) (fun _ _ => "medium") 2 [] [] [] []
      = .error "ZeroDivisionError: integer modulo by zero" := rfl

/-- C3 (amended): for every target `T ≥ 2` and every configuration whose
category-minimum map is *non-empty* with parseable `CO<n>` keys (and
parseable `unit_<n>` keys in the unit map), the generation plan exists and
its marks sum to exactly `T`.  With an empty category map and budget left for
phase 3 the builder instead raises (see C10). -/
theorem build_plan_total_eq_target (cb : Nat → List (Int × Rat) → Int)
    (cd : Nat → List (String × Rat) → String) (T : Int)
    (co : List (String × Int)) (bloom : List (Int × Rat)) (diff : List (String × Rat))
    (units : List (String × Int))
    (hT : 2 ≤ T) (hco : co ≠ [])
    (hcoparse : ∀ p ∈ co, (map_co_to_unit p.1).isSome)
    (hunitparse : ∀ p ∈ units, (map_unit_to_co p.1).isSome) :
    ∃ plan, build_generation_plan cb cd T co bloom diff units = .ok plan
      ∧ sumSpecMarks plan = T := by
  obtain ⟨p1, r1, h1, hs1, hn1⟩ := planPhase1_spec cb cd bloom diff (sortByKey co) T []
    (fun p hp => hcoparse p ((mem_sortByKey p co).mp hp)) (by omega)
  have h0 : sumSpecMarks ([] : List QuestionSpec) = 0 := rfl
  by_cases hu : units = []
  · obtain ⟨p3, h3, hs3⟩ := planPhase3_spec cb cd bloom diff co hco hcoparse
      r1.toNat r1 p1 hn1 (le_refl _)
    refine ⟨p3, ?_, by omega⟩
    unfold build_generation_plan
    simp only [h1]
    rw [if_pos hu]
    exact h3
  · obtain ⟨p2, r2, h2, hs2, hn2⟩ := planPhase2_spec cb cd bloom diff (sortByKey units) r1 p1
      (fun p hp => hunitparse p ((mem_sortByKey p units).mp hp)) hn1
    obtain ⟨p3, h3, hs3⟩ := planPhase3_spec cb cd bloom diff co hco hcoparse
      r2.toNat r2 p2 hn2 (le_refl _)
    refine ⟨p3, ?_, by omega⟩
    unfold build_generation_plan
    simp only [h1]
    rw [if_neg hu]
    simp only [h2]
    exact h3

/-- Witness for the amended C3 theorem at a concrete input. -/
theorem build_plan_total_eq_target_witness :
    ∃ plan, build_generation_plan (fun _ _ => 2) (fun _ _ => "medium") 10
        [("CO1", 4)] [] [] [] = .ok plan ∧ sumSpecMarks plan = 10 :=
  build_plan_total_eq_target (fun _ _ => 2) (fun _ _ => "medium") 10
    [("CO1", 4)] [] [] [] (by decide) (by decide) (by decide) (by decide)

/-! ### C10: phase 3 raises on an empty CO map — confirmed -/

/-- C10: whenever the blueprint's category-minimum map is empty and the
remaining budget is still positive when phase 3 is reached (the state after
phases 1-2 being `(p2, r2)` with `0 < r2`), `_build_generation_plan` raises a
`ZeroDivisionError` (`len(plan) % len(co_requirements)` with an empty map)
instead of returning a plan. -/
theorem build_plan_raises_on_empty_co_with_budget (cb : Nat → List (Int × Rat) → Int)
    (cd : Nat → List (String × Rat) → String) (bloom : List (Int × Rat))
    (diff : List (String × Rat)) (units : List (String × Int)) (T : Int)
    (p2 : List QuestionSpec) (r2 : Int)
    (h12 : (if units = [] then Except.ok (([], T) : List QuestionSpec × Int)
            else planPhase2 cb cd bloom diff (sortByKey units) T []) = .ok (p2, r2))
    (hpos : 0 < r2) :
    build_generation_plan cb cd T [] bloom diff units
      = .error "ZeroDivisionError: integer modulo by zero" := by
  unfold build_generation_plan
  have h1 : planPhase1 cb cd bloom diff (sortByKey []) T [] = .ok ([], T) := rfl
  simp only [h1]
  simp only [h12]
  obtain ⟨n, hn⟩ : ∃ n, r2.toNat = n + 1 := ⟨r2.toNat - 1, by omega⟩
  rw [hn, planPhase3]
  rw [if_pos hpos]
  rfl

/-- Witness for C10 at a concrete input (budget 5, no CO map, no units). -/
theorem build_plan_raises_on_empty_co_with_budget_witness :
    build_generation_plan (fun _ _ => 2) (fun _ _ => "medium") 5 [] [] [] []
      = .error "ZeroDivisionError: integer modulo by zero" :=
  build_plan_raises_on_empty_co_with_budget (fun _ _ => 2) (fun _ _ => "medium")
    [] [] [] 5 [] 5 rfl (by decide)

/-! ## Production-loop lemmas -/

theorem runGenerationLoop_ids (produce : Nat → QuestionSpec → Except String Int) :
    ∀ (plan : List QuestionSpec) (i : Nat) (ids : List Int) (db : Int → Int),
    (runGenerationLoop produce plan i ids db).1
      = ids ++ (List.enumFrom i plan).filterMap (fun p => (produce p.1 p.2).toOption) := by
  intro plan
  induction plan with
  | nil => intro i ids db; simp [runGenerationLoop]
  | cons spec rest ih =>
    intro i ids db
    cases hp : produce i spec with
    | ok qid =>
      simp [runGenerationLoop, hp, ih, List.enumFrom_cons, List.filterMap_cons, Except.toOption]
    | error e =>
      simp [runGenerationLoop, hp, ih, List.enumFrom_cons, List.filterMap_cons, Except.toOption]

theorem runGenerationLoop_db_untouched (produce : Nat → QuestionSpec → Except String Int) :
    ∀ (plan : List QuestionSpec) (i : Nat) (ids : List Int) (db : Int → Int) (j : Int),
    (∀ p ∈ List.enumFrom i plan, ∀ qid, produce p.1 p.2 = .ok qid → qid ≠ j) →
    (runGenerationLoop produce plan i ids db).2 j = db j := by
  intro plan
  induction plan with
  | nil => intro i ids db j _; simp [runGenerationLoop]
  | cons spec rest ih =>
    intro i ids db j hno
    cases hp : produce i spec with
    | ok qid =>
      rw [runGenerationLoop]
      simp only [hp]
      have hne : qid ≠ j := hno (i, spec) (by simp [List.enumFrom_cons]) qid hp
      rw [ih (i + 1) (ids ++ [qid]) _ j
        (fun p hp' qid' hq => hno p (by simp [List.enumFrom_cons, hp']) qid' hq)]
      exact if_neg (fun h => hne h.symm)
    | error e =>
      rw [runGenerationLoop]
      simp only [hp]
      exact ih (i + 1) ids db j
        (fun p hp' qid hq => hno p (by simp [List.enumFrom_cons, hp']) qid hq)

theorem runGenerationLoop_db_marks (produce : Nat → QuestionSpec → Except String Int) :
    ∀ (plan : List QuestionSpec) (i : Nat) (ids : List Int) (db : Int → Int),
    ((List.enumFrom i plan).filterMap (fun p => (produce p.1 p.2).toOption)).Nodup →
    ∀ p ∈ List.enumFrom i plan, ∀ qid, produce p.1 p.2 = .ok qid →
    (runGenerationLoop produce plan i ids db).2 qid = p.2.marks := by
  intro plan
  induction plan with
  | nil => intro i ids db _ p hp; simp at hp
  | cons spec rest ih =>
    intro i ids db hnodup p hp qid hq
    cases hpr : produce i spec with
    | ok qid0 =>
      rw [List.enumFrom_cons, List.filterMap_cons] at hnodup
      rw [show (produce (i, spec).1 (i, spec).2).toOption = some qid0 by
        simp [hpr, Except.toOption]] at hnodup
      rw [List.nodup_cons] at hnodup
      rw [runGenerationLoop]
      simp only [hpr]
      rw [List.enumFrom_cons] at hp
      rcases List.mem_cons.mp hp with rfl | hp'
      · have hqid : qid = qid0 := by
          rw [hq] at hpr
          injection hpr
        subst hqid
        rw [runGenerationLoop_db_untouched produce rest (i + 1) (ids ++ [qid]) _ qid
          (fun p' hp' qid' hq' => fun hcontra => by
            apply hnodup.1
            subst hcontra
            exact List.mem_filterMap.mpr ⟨p', hp', by simp [hq', Except.toOption]⟩)]
        simp
      · exact ih (i + 1) (ids ++ [qid0]) _ hnodup.2 p hp' qid hq
    | error e =>
      rw [runGenerationLoop]
      simp only [hpr]
      rw [List.enumFrom_cons] at hp hnodup
      rw [List.filterMap_cons] at hnodup
      rw [show (produce (i, spec).1 (i, spec).2).toOption = none by
        simp [hpr, Except.toOption]] at hnodup
      rcases List.mem_cons.mp hp with rfl | hp'
      · rw [hq] at hpr
        cases hpr
      · exact ih (i + 1) ids db hnodup p hp' qid hq

theorem filterMap_length_add_countP (f : (Nat × QuestionSpec) → Option Int) :
    ∀ l : List (Nat × QuestionSpec),
    (l.filterMap f).length + l.countP (fun p => (f p).isNone) = l.length := by
  intro l
  induction l with
  | nil => simp
  | cons a t ih =>
    cases hf : f a <;>
      simp [List.filterMap_cons, hf, List.countP_cons] <;>
      omega

/-! ### C6: per-spec production failures are skipped — confirmed -/

/-- C6: for every generation plan of `n` specs, if exactly `k` production
calls fail, the production loop of `generate_paper_questions` catches each
failure and skips that spec with no retry, lets no exception escape (the
loop is a total function), returns exactly the `n − k` ids of the successful
productions in order, and overwrites each produced question's stored marks
with its spec's marks (given that the producer returns distinct ids). -/
theorem generation_loop_failures_skipped
    (produce : Nat → QuestionSpec → Except String Int)
    (plan : List QuestionSpec) (db : Int → Int) (k : Nat)
    (hk : plan.enum.countP (fun p => ((produce p.1 p.2).toOption).isNone) = k)
    (hnodup : (plan.enum.filterMap (fun p => (produce p.1 p.2).toOption)).Nodup) :
    (runGenerationLoop produce plan 0 [] db).1
        = plan.enum.filterMap (fun p => (produce p.1 p.2).toOption)
    ∧ (runGenerationLoop produce plan 0 [] db).1.length = plan.length - k
    ∧ ∀ p ∈ plan.enum, ∀ qid, produce p.1 p.2 = .ok qid →
        (runGenerationLoop produce plan 0 [] db).2 qid = p.2.marks := by
  rw [List.enum_eq_enumFrom] at hk hnodup ⊢
  have hids := runGenerationLoop_ids produce plan 0 [] db
  refine ⟨by simpa using hids, ?_, ?_⟩
  · rw [hids]
    have hcnt := filterMap_length_add_countP (fun p => (produce p.1 p.2).toOption)
      (List.enumFrom 0 plan)
    have hlen : (List.enumFrom 0 plan).length = plan.length := by simp
    simp only [List.nil_append]
    omega
  · exact runGenerationLoop_db_marks produce plan 0 [] db hnodup

/-- The five-spec plan of the C6 witness (scenario D). -/
def planC6 : List QuestionSpec :=
  [ { unit_id := "unit_1", co_id := "CO1", bloom_level := 2, difficulty := "medium", marks := 2 },
    { unit_id := "unit_1", co_id := "CO1", bloom_level := 3, difficulty := "easy", marks := 5 },
    { unit_id := "unit_2", co_id := "CO2", bloom_level := 2, difficulty := "medium", marks := 10 },
    { unit_id := "unit_3", co_id := "CO3", bloom_level := 4, difficulty := "hard", marks := 16 },
    { unit_id := "unit_2", co_id := "CO2", bloom_level := 1, difficulty := "easy", marks := 2 } ]

/-- C6 witness producer: the third call fails, the rest return fresh ids. -/
def produceC6 : Nat → QuestionSpec → Except String Int :=
  fun i _ => if i = 2 then .error "production failed" else .ok (100 + (i : Int))

/-- Witness for C6: 1 of 5 specs fails, 4 ids are returned. -/
theorem generation_loop_failures_skipped_witness :
    (runGenerationLoop produceC6 planC6 0 [] (fun _ => 0)).1
        = planC6.enum.filterMap (fun p => (produceC6 p.1 p.2).toOption)
    ∧ (runGenerationLoop produceC6 planC6 0 [] (fun _ => 0)).1.length = planC6.length - 1
    ∧ ∀ p ∈ planC6.enum, ∀ qid, produceC6 p.1 p.2 = .ok qid →
        (runGenerationLoop produceC6 planC6 0 [] (fun _ => 0)).2 qid = p.2.marks :=
  generation_loop_failures_skipped produceC6 planC6 (fun _ => 0) 1 (by decide) (by decide)

theorem except_eq_ok_of_toOption {ε α : Type} {x : Except ε α} {a : α}
    (h : x.toOption = some a) : x = Except.ok a := by
  cases x <;> simp [Except.toOption] at h
  simp [h]

/-! ### C5: hybrid keep/discard of the bank contribution — corrected -/

/-- C5 (amended): hybrid keeps the bank contribution iff the selector
reported `success = true` *and* at least `min_from_bank` questions were
selected (orchestrator line 168 tests both).  When kept, the final ids are
the bank question ids followed by the fresh ids; when discarded, the final
ids are exactly the ids freshly produced over the full, unmodified blueprint
(so no bank id appears, provided the producer returns fresh ids). -/
theorem hybrid_bank_kept_iff_success_and_min
    (produce : Nat → QuestionSpec → Except String Int)
    (cb : Nat → List (Int × Rat) → Int) (cd : Nat → List (String × Rat) → String)
    (bp : PaperBlueprint) (eligible : List Question)
    (shuffle : List Question → List Question) (db : Int → Int) (min_from_bank : Int)
    (res : SelectionResult) (paper : SavedPaper) (T : Int)
    (hsel : select_questions bp eligible true shuffle = .ok res)
    (hok : generate_paper_hybrid produce cb cd bp eligible shuffle db min_from_bank
      = .ok paper)
    (hT : getIntConstraint bp "marks_total" = some T) (hTpos : 0 < T) :
    ((res.success = true ∧ min_from_bank ≤ (res.selected_questions.length : Int)) →
      ∃ freshIds, paper.question_ids
        = res.selected_questions.map (fun q => q.id) ++ freshIds)
    ∧ (¬(res.success = true ∧ min_from_bank ≤ (res.selected_questions.length : Int)) →
      ∃ freshRes, generate_paper_questions produce cb cd bp db = .ok freshRes
        ∧ paper.question_ids = freshRes.1) := by
  unfold generate_paper_hybrid at hok
  simp only [hsel, hT] at hok
  by_cases hkeep : res.success = true ∧ min_from_bank ≤ (res.selected_questions.length : Int)
  · rw [if_pos hkeep] at hok
    refine ⟨fun _ => ?_, fun hn => absurd hkeep hn⟩
    split at hok
    · exact absurd hok (by simp)
    · rename_i fresh heq
      injection hok with hok
      subst hok
      exact ⟨fresh, rfl⟩
  · rw [if_neg hkeep] at hok
    refine ⟨fun hk => absurd hk hkeep, fun _ => ?_⟩
    rw [if_pos (show (0 : Int) < T - sumMarks [] by simpa [sumMarks] using hTpos)] at hok
    cases hg : generate_paper_questions produce cb cd bp db with
    | error e =>
      rw [hg] at hok
      exact absurd hok (by simp [Except.map])
    | ok fr =>
      rw [hg] at hok
      simp only [Except.map] at hok
      injection hok with hok
      subst hok
      exact ⟨fr, rfl, by simp⟩

/-- Blueprint of the C5 counterexample: CO1 minimum 4 is unreachable, so
selection succeeds in count (3 questions) but not in `success`. -/
def bpC5cex : PaperBlueprint :=
  { paper_name := "Midterm Examination", course_code := "CS103", constraints :=
      [ { constraint_type := "marks_total", value := .intVal 10 },
        { constraint_type := "duration", value := .intVal 90 },
        { constraint_type := "co_coverage",
          value := .strIntMap [("CO1", 4), ("CO2", 2), ("CO3", 2)] } ] }

/-- A 2-mark question with the given id and primary CO (C5 pools). -/
def qC5 (i : Int) (co : String) : Question :=
  { id := i, marks := 2, primary_co := co, unit_id := "unit_1", bloom_level := 2,
    difficulty := "medium", quality_score := 50 }

/-- The three-question bank pool used by the C5 scenarios. -/
def poolC5cex : List Question := [qC5 1 "CO1", qC5 2 "CO2", qC5 3 "CO3"]

/-- C5 producer: returns fresh ids 1000, 1001, ... -/
def produceC5 : Nat → QuestionSpec → Except String Int :=
  fun i _ => .ok (1000 + (i : Int))

/-- Blueprint of the C5 witness: all CO minimums reachable. -/
def bpC5w : PaperBlueprint :=
  { paper_name := "Midterm Examination", course_code := "CS104", constraints :=
      [ { constraint_type := "marks_total", value := .intVal 10 },
        { constraint_type := "duration", value := .intVal 90 },
        { constraint_type := "co_coverage",
          value := .strIntMap [("CO1", 2), ("CO2", 2), ("CO3", 2)] } ] }

/-- The (successful) selection result of the C5 witness run. -/
def resC5w : SelectionResult :=
  { success := true,
    selected_questions := [qC5 1 "CO1", qC5 2 "CO2", qC5 3 "CO3"],
    total_marks := 6,
    constraints_satisfied :=
      [("total_marks", true), ("co_coverage", true),
       ("bloom_distribution", true), ("difficulty_mix", true)],
    selection_metadata := [("eligible_count", .int 3), ("selected_count", .int 3)] }

/-- The persisted paper of the C5 witness run: bank ids then fresh ids. -/
def paperC5w : SavedPaper :=
  { paper_name := "Midterm Examination", course_code := "CS104",
    question_ids := [1, 2, 3, 1000, 1001, 1002, 1003, 1004], status := "finalized" }

/-- C5 counterexample: the selector picks 3 questions (= default
`minFromBank`) but with `success = false`, and hybrid *discards* the bank:
the final paper contains only fresh ids, none of the bank ids — refuting
"kept if and only if at least minFromBank questions were selected". -/
theorem hybrid_discards_bank_despite_min_cex :
    (select_questions bpC5cex poolC5cex true id).toOption.map
        (fun r => (r.success, r.selected_questions.length)) = some (false, 3)
    ∧ generate_paper_hybrid produceC5 (fun _ _ => 2) (fun _ _ => "medium") bpC5cex
        poolC5cex id (fun _ => 0) 3
      = .ok { paper_name := "Midterm Examination", course_code := "CS103",
              question_ids := [1000, 1001, 1002, 1003, 1004], status := "finalized" }
    ∧ (∀ q ∈ poolC5cex, q.id ∉ ([1000, 1001, 1002, 1003, 1004] : List Int)) :=
  ⟨by decide, except_eq_ok_of_toOption (by decide), by decide⟩

/-- Witness for the amended C5 theorem at a concrete kept-case run. -/
theorem hybrid_bank_kept_iff_success_and_min_witness :
    ((resC5w.success = true ∧ (3 : Int) ≤ (resC5w.selected_questions.length : Int)) →
      ∃ freshIds, paperC5w.question_ids
        = resC5w.selected_questions.map (fun q => q.id) ++ freshIds)
    ∧ (¬(resC5w.success = true ∧ (3 : Int) ≤ (resC5w.selected_questions.length : Int)) →
      ∃ freshRes, generate_paper_questions produceC5 (fun _ _ => 2) (fun _ _ => "medium")
          bpC5w (fun _ => 0) = .ok freshRes
        ∧ paperC5w.question_ids = freshRes.1) :=
  hybrid_bank_kept_iff_success_and_min produceC5 (fun _ _ => 2) (fun _ _ => "medium")
    bpC5w poolC5cex id (fun _ => 0) 3 resC5w paperC5w 10
    (except_eq_ok_of_toOption (by decide)) (except_eq_ok_of_toOption (by decide))
    (by decide) (by decide)
